import Mathlib

/-!
Verification development for the SDaily-Planner repository.

Shallow embedding conventions:
* Calendar dates (the `YYYY-MM-DD` strings of the source) are modelled as
  natural-number day indices (days since the epoch); time instants are
  natural-number milliseconds since the epoch, with `msPerDay` milliseconds
  per day (linear time, no DST).  `parseISO` of a date-only string is the
  day boundary `d * msPerDay`.
* Absent / `undefined` / empty-string optional values are modelled as
  `Option.none`; JavaScript truthiness tests on them are `Option.isSome`.
* JavaScript numbers used for card positions are modelled as rationals.
* TypeScript arrays are Lean lists; optional arrays are lists (absent = `[]`).
* Remote (Supabase) calls are modelled by explicit database state passing in
  the data layer, and by an environment of call outcomes plus an emitted
  operation trace in the board layer.
-/

/-- Milliseconds per day (the JS day length, linear time). -/
def msPerDay : Nat := 86400000

/-- Day index of an instant (date-fns: which calendar day `t` falls in). -/
def dayOf (t : Nat) : Nat := t / msPerDay

/-- date-fns `startOfDay`: first instant of the day containing `t`. -/
def startOfDay (t : Nat) : Nat := (t / msPerDay) * msPerDay

/-- date-fns `endOfDay`: last instant (23:59:59.999) of the day containing `t`. -/
def endOfDay (t : Nat) : Nat := (t / msPerDay) * msPerDay + (msPerDay - 1)

/-- `String.prototype.startsWith`, over the character data (so that concrete
instances evaluate in the kernel). -/
def strStartsWith (s pre : String) : Bool := pre.data.isPrefixOf s.data

/-- Drop the first `n` characters of a string (the effect of
`replace('plan-', '')` on a `plan-`-prefixed id). -/
def strDropN (s : String) (n : Nat) : String := ⟨s.data.drop n⟩

/-- `src/lib/types.ts` `TimeSlot`. -/
structure TimeSlot where
  id : String
  time : String
  description : String
deriving DecidableEq, Repr

/-- `src/lib/types.ts` `Attachment`. -/
structure Attachment where
  id : String
  type : String
  name : String
  url : String
deriving DecidableEq, Repr

/-- `src/lib/types.ts` `ChecklistItem`. -/
structure ChecklistItem where
  id : String
  text : String
  completed : Bool
deriving DecidableEq, Repr

/-- `src/lib/types.ts` `Comment`. -/
structure Comment where
  id : String
  text : String
  createdAt : String
  isMarkedDone : Bool
deriving DecidableEq, Repr

/-- `src/lib/types.ts` `Plan`: dates as day indices, absent fields as `none`. -/
structure Plan where
  id : String
  title : String
  description : Option String := none
  date : Nat
  timeSlots : List TimeSlot := []
  hasDueDate : Bool
  dueDate : Option Nat := none
  attachments : List Attachment := []
  completed : Bool
  createdAt : String := ""
deriving DecidableEq, Repr

/-- `src/lib/types.ts` `KanbanCard` (plus the `position` field the code uses). -/
structure Card where
  id : String
  title : String
  description : Option String := none
  status : String
  startDate : Option Nat := none
  endDate : Option Nat := none
  timeSlots : List TimeSlot := []
  checklist : List ChecklistItem := []
  comments : List Comment := []
  attachments : List Attachment := []
  createdAt : String := ""
  linkedPlanId : Option String := none
  position : Option Rat := none
deriving DecidableEq, Repr

namespace Utils

/-- `src/lib/utils.ts` `isOverdue` (wall-clock variant): not completed, and the
current instant is strictly after the end of the day of `dueDate || date`.
`date`/`dueDate` are the parsed instants of the argument strings (`none` for
absent or empty strings, on which JS truthiness falls through). -/
def isOverdue (now : Nat) (date : Option Nat) (dueDate : Option Nat)
    (completed : Bool) : Bool :=
  if completed then false else
  match date with
  | none => false
  | some d =>
    let target := dueDate.getD d
    decide (endOfDay target < now)

end Utils

namespace MobileUtils

/-- `src/unnamed/part_005` `isOverdue` (calendar-day variant): not completed,
and the parsed target `dueDate || date` is strictly before the start of the
current day. -/
def isOverdue (now : Nat) (date : Option Nat) (dueDate : Option Nat)
    (completed : Bool) : Bool :=
  if completed then false else
  match date with
  | none => false
  | some d =>
    let target := dueDate.getD d
    decide (target < startOfDay now)

end MobileUtils

/-- `src/unnamed/part_000` `determineCardStatus`: which column a plan belongs
in, evaluated at instant `now`.  Plan dates are day indices, so the parsed
`startDate`/`endDate` of the source are the day boundaries `date * msPerDay`.
`plan.hasDueDate && plan.dueDate` is the truthiness test on the optional due
date. -/
def determineCardStatus (now : Nat) (plan : Plan) : String :=
  if plan.completed then "completed" else
  let today := startOfDay now
  let startDate := plan.date * msPerDay
  let endDate := if plan.hasDueDate ∧ plan.dueDate.isSome
    then (plan.dueDate.getD plan.date) * msPerDay else startDate
  if Utils.isOverdue now (some (plan.date * msPerDay))
      (plan.dueDate.map (· * msPerDay)) plan.completed then "in-progress"
  else if dayOf startDate = dayOf now ∨ (startDate ≤ today ∧ endDate ≥ today)
    then "in-progress"
  else if today < startDate ∨ (plan.hasDueDate ∧ today < startDate)
    then "pending"
  else "inbox"

/-- `src/unnamed/part_000` `planToCard`: the virtual card projected from a
plan (id `plan-<planId>`, empty checklist/comments, no position). -/
def planToCard (now : Nat) (plan : Plan) : Card :=
  { id := "plan-" ++ plan.id
    title := plan.title
    description := plan.description
    status := determineCardStatus now plan
    startDate := some plan.date
    endDate := if plan.hasDueDate then plan.dueDate else some plan.date
    timeSlots := plan.timeSlots
    checklist := []
    comments := []
    attachments := plan.attachments
    createdAt := plan.createdAt
    linkedPlanId := some plan.id
    position := none }

/-- JS `a || b` on the optional numeric `position` field: `undefined` and `0`
are falsy. -/
def jsOrPos (a b : Option Rat) : Option Rat :=
  match a with
  | some q => if q = 0 then b else some q
  | none => b

/-- The overlay of `src/unnamed/part_000` lines 153-166: a plan whose id an
existing card links to is merged onto that card.  Everything comes from the
fresh `planToCard` projection except: time slots from the plan, checklist and
comments from the existing card, position `existing.position || newCard.position`
(JS truthiness), and status kept from the existing card when it is a custom
section or `completed`. -/
def mergeCard (now : Nat) (existing : Card) (plan : Plan) : Card :=
  let newCard := planToCard now plan
  { newCard with
    timeSlots := plan.timeSlots
    checklist := existing.checklist
    comments := existing.comments
    position := jsOrPos existing.position newCard.position
    status := if strStartsWith existing.status "custom-" then existing.status
      else if existing.status = "completed" then "completed"
      else newCard.status }

/-- One plan's step of the sync effect (`src/unnamed/part_000` lines 150-169):
`findIndex` of the first card linked to the plan; overlay it in place if
found, else push the virtual card at the end.  Rendered as structural
recursion over the card list (replace the first match, else append). -/
def syncOne (now : Nat) (plan : Plan) : List Card → List Card
  | [] => [planToCard now plan]
  | c :: cs =>
    if c.linkedPlanId = some plan.id then mergeCard now c plan :: cs
    else c :: syncOne now plan cs

/-- The body of the `plans.forEach` loop of the sync effect: skip ignored
plans, otherwise run `syncOne`. -/
def syncStep (now : Nat) (ignoredPlanIds : List String) (cs : List Card)
    (plan : Plan) : List Card :=
  if plan.id ∈ ignoredPlanIds then cs else syncOne now plan cs

/-- The full sync effect of `src/unnamed/part_000` lines 141-183 ("reconcile
pass"): start from the raw card mirror, fold the plans (skipping ignored
ones), then drop every card whose `linkedPlanId` is ignored or matches no
plan in the mirror. -/
def kanbanSync (now : Nat) (rawCards : List Card) (plans : List Plan)
    (ignoredPlanIds : List String) : List Card :=
  let merged := plans.foldl (syncStep now ignoredPlanIds) rawCards
  merged.filter fun card =>
    match card.linkedPlanId with
    | some pid => ¬ pid ∈ ignoredPlanIds ∧ plans.any (fun p => p.id = pid)
    | none => true

/-- Number of cards in a list linked to a given plan id. -/
def linkedCount (pid : String) (cs : List Card) : Nat :=
  (cs.filter fun c => c.linkedPlanId = some pid).length

/-- The `Partial<Plan>` payload (title/description/date/dueDate/hasDueDate/
attachments/completed) that the board's `syncCardToPlanner` pushes to
`updatePlan`. -/
structure PlanPatch where
  id : String
  title : String
  description : String
  date : Nat
  dueDate : Option Nat
  hasDueDate : Bool
  attachments : List Attachment
  completed : Bool
deriving DecidableEq, Repr

/-- `src/unnamed/part_000` `syncCardToPlanner` (lines 186-205), as the pure
mapping from an edited card to the plan payload it writes: `none` when the
card has no `linkedPlanId` (the function returns early).  `nowDay` stands for
`new Date().toISOString()` in the `card.startDate || ...` fallback. -/
def syncCardToPlanner (nowDay : Nat) (card : Card) : Option PlanPatch :=
  match card.linkedPlanId with
  | none => none
  | some pid => some
    { id := pid
      title := card.title
      description := card.description.getD ""
      date := card.startDate.getD nowDay
      dueDate := card.endDate
      hasDueDate := card.startDate.isSome ∧ card.endDate.isSome ∧
        card.startDate ≠ card.endDate
      attachments := card.attachments
      completed := card.status = "completed" }

/-- `card.position || 0`, the read used throughout the drag handler. -/
def posD (c : Card) : Rat := c.position.getD 0

/-- A placeholder for out-of-bounds list reads (unreachable in the guarded
branches below, like JS index accesses in `handleDragEnd`). -/
def dummyCard : Card :=
  { id := "", title := "", status := "", createdAt := "" }

/-- Position read of the `i`-th card of a list. -/
def posAt (cs : List Card) (i : Nat) : Rat := posD (cs.getD i dummyCard)

/-- The destination-column neighbours of `handleDragEnd`
(`src/unnamed/part_000` lines 243-245): cards of the destination column other
than the dragged one, sorted by `position || 0` ascending.  JS `Array.sort`
is stable, so it is rendered by the (stable) insertion sort. -/
def destCardsOf (cards : List Card) (newStatus draggableId : String) : List Card :=
  (cards.filter fun c => c.status = newStatus ∧ c.id ≠ draggableId).insertionSort
    (fun a b => posD a ≤ posD b)

/-- The new fractional position computed by `handleDragEnd`
(`src/unnamed/part_000` lines 247-258). -/
def handleDragEndNewPosition (cards : List Card) (newStatus draggableId : String)
    (destIndex : Nat) : Rat :=
  let destCards := destCardsOf cards newStatus draggableId
  if destCards.length = 0 then 1000
  else if destIndex = 0 then posAt destCards 0 / 2
  else if destIndex ≥ destCards.length then posAt destCards (destCards.length - 1) + 1000
  else (posAt destCards (destIndex - 1) + posAt destCards destIndex) / 2

/-- `Math.max(0, ...cards.map(c => c.position || 0))` from the board's
`addCard` (`src/unnamed/part_000` line 334). -/
def maxPos (cards : List Card) : Rat :=
  cards.foldl (fun m c => max m (posD c)) 0

/-- The new card the board's `addCard` builds (`src/unnamed/part_000` lines
335-344) before handing it to the data layer's `createCard`. -/
def addCardNewCard (cards : List Card) (newId title status nowIso : String) : Card :=
  { id := newId
    title := title
    status := status
    checklist := []
    comments := []
    attachments := []
    createdAt := nowIso
    position := some (maxPos cards + 1000) }

/-- A remote (Supabase) call issued by the board component, recorded as a
trace entry in program order. -/
inductive RemoteOp where
  | createCard (c : Card)
  | deletePlan (pid : String)
  | createPlan (p : Plan)
  | updatePlan (patch : PlanPatch)
  | updateCardDB (c : Card)
  | refreshAll
deriving DecidableEq, Repr

/-- The local state of the `KanbanBoard` component that the claims mention:
the two mirrors, the ignore set, the selected card, the modal flag and the
user-facing error message. -/
structure BoardState where
  rawCards : List Card := []
  plans : List Plan := []
  ignoredPlanIds : List String := []
  selectedCard : Option Card := none
  isModalOpen : Bool := false
  error : Option String := none
deriving DecidableEq, Repr

/-- Outcomes of the asynchronous remote calls the board awaits, plus the
fresh ids and clock reads it takes, passed in as an environment. -/
structure BoardEnv where
  now : Nat := 0
  nowIso : String := ""
  newCardId : String := ""
  newPlanId : String := ""
  createCardOk : Bool := true
  createPlanOk : Bool := true
  updateCardOk : Bool := true
deriving DecidableEq, Repr

/-- `src/unnamed/part_000` `createPlanFromCard` (lines 208-225): the plan a
dated, unlinked card is turned into (`none` when the card has no start date
or is already linked, where the source returns early). -/
def createPlanFromCard (newPlanId : String) (card : Card) : Option Plan :=
  match card.startDate with
  | none => none
  | some d =>
    if card.linkedPlanId.isSome then none
    else some
      { id := newPlanId
        title := card.title
        description := card.description
        date := d
        hasDueDate := card.endDate.isSome ∧ card.startDate ≠ card.endDate
        dueDate := card.endDate
        attachments := card.attachments
        completed := card.status = "completed"
        createdAt := card.createdAt
        timeSlots := [] }

/-- Steps 3 and 4 of the board's `updateCard` (`src/unnamed/part_000` lines
444-461): optimistic local mirror update, then persist via the data layer's
`updateCard`; on success a silent refresh and modal close, on failure a
user-facing error. -/
def boardUpdateCardFinish (env : BoardEnv) (st : BoardState) (finalCard : Card)
    (ops : List RemoteOp) : BoardState × List RemoteOp :=
  let lpid := st.selectedCard.bind Card.linkedPlanId
  let st1 := if finalCard.startDate = none ∧ lpid.isSome then
      { st with plans := st.plans.filter fun (p : Plan) => ¬ lpid = some p.id }
    else st
  let st2 := { st1 with
    rawCards := st1.rawCards.map fun (c : Card) => if c.id = finalCard.id then finalCard else c }
  if env.updateCardOk then
    ({ st2 with isModalOpen := false, selectedCard := none },
     ops ++ [RemoteOp.updateCardDB finalCard, RemoteOp.refreshAll])
  else
    ({ st2 with error := some "Could not update card in database." },
     ops ++ [RemoteOp.updateCardDB finalCard])

/-- The board component's `updateCard` (`src/unnamed/part_000` lines 354-462),
as a transition on the board state that also returns the trace of remote
calls it issues.  The `deletePlan` outcome is deliberately absent from the
environment: the source awaits it but ignores its boolean result (the data
layer's `deletePlan` catches its own errors), so the local outcome cannot
depend on it. -/
def boardUpdateCard (env : BoardEnv) (st : BoardState) (updatedCard : Card) :
    BoardState × List RemoteOp :=
  match updatedCard.startDate with
  | none =>
    -- 1. date cleared
    let finalCard1 := if strStartsWith updatedCard.status "custom-" then updatedCard
      else { updatedCard with status := "inbox" }
    if strStartsWith updatedCard.id "plan-" then
      -- promotion-and-teardown of a virtual plan card (lines 366-406)
      let realCard := { finalCard1 with
        id := env.newCardId, linkedPlanId := none, createdAt := env.nowIso }
      if env.createCardOk = false then
        ({ st with error := some "Failed to unschedule card. Please try again." },
         [RemoteOp.createCard realCard])
      else
        let lpid := st.selectedCard.bind Card.linkedPlanId
        let st1 := match lpid with
          | some pid => { st with ignoredPlanIds := st.ignoredPlanIds ++ [pid] }
          | none => st
        let delOps := match lpid with
          | some pid => [RemoteOp.deletePlan pid]
          | none => []
        ({ st1 with
            rawCards := (st1.rawCards.filter fun (c : Card) => ¬ c.id = updatedCard.id) ++ [realCard]
            plans := st1.plans.filter fun (p : Plan) => ¬ lpid = some p.id
            isModalOpen := false
            selectedCard := none },
         RemoteOp.createCard realCard :: delOps)
    else
      -- already a real card: delete the linked plan, clear the link (lines 409-416)
      let lpid := st.selectedCard.bind Card.linkedPlanId
      let finalCard2 := match lpid with
        | some _ => { finalCard1 with linkedPlanId := none }
        | none => finalCard1
      let ops1 := match lpid with
        | some pid => [RemoteOp.deletePlan pid]
        | none => []
      boardUpdateCardFinish env st finalCard2 ops1
  | some s =>
    -- 2. date present: recompute status, then create or sync the plan (lines 419-442)
    let finalCard1 :=
      if ¬ updatedCard.status = "completed" ∧ ¬ strStartsWith updatedCard.status "custom-" then
        let today := startOfDay env.now
        let startD := s * msPerDay
        let endD := (updatedCard.endDate.getD s) * msPerDay
        if dayOf startD = dayOf env.now ∨ (startD ≤ today ∧ endD ≥ today) then
          { updatedCard with status := "in-progress" }
        else if Utils.isOverdue env.now (some startD)
            (updatedCard.endDate.map (· * msPerDay)) false then
          { updatedCard with status := "in-progress" }
        else if today < startD then { updatedCard with status := "pending" }
        else updatedCard
      else updatedCard
    let step2 :=
      if finalCard1.linkedPlanId.isSome then
        (finalCard1,
         match syncCardToPlanner (dayOf env.now) finalCard1 with
         | some patch => [RemoteOp.updatePlan patch]
         | none => [])
      else
        match createPlanFromCard env.newPlanId finalCard1 with
        | some newPlan =>
          (if env.createPlanOk then { finalCard1 with linkedPlanId := some env.newPlanId }
           else finalCard1,
           [RemoteOp.createPlan newPlan])
        | none => (finalCard1, [])
    boardUpdateCardFinish env st step2.1 step2.2

/-- Row of the `plans` table. -/
structure PlanRow where
  id : String
  title : String
  description : Option String := none
  date : Nat
  has_due_date : Bool
  due_date : Option Nat := none
  completed : Bool
  created_at : String := ""
deriving DecidableEq, Repr

/-- Row of the `kanban_cards` table (`position` is a nullable column). -/
structure CardRow where
  id : String
  title : String
  description : Option String := none
  status : String
  start_date : Option Nat := none
  end_date : Option Nat := none
  linked_plan_id : Option String := none
  created_at : String := ""
  position : Option Rat := none
deriving DecidableEq, Repr

/-- Row of `card_checklist_items`. -/
structure CheckRow where
  id : String
  card_id : String
  text : String
  completed : Bool
deriving DecidableEq, Repr

/-- Row of `card_comments`. -/
structure CommentRow where
  id : String
  card_id : String
  text : String
  is_marked_done : Bool
  created_at : String
deriving DecidableEq, Repr

/-- Row of `card_attachments`. -/
structure CardAttRow where
  id : String
  card_id : String
  type : String
  name : String
  url : String
deriving DecidableEq, Repr

/-- Row of `card_time_slots`. -/
structure CardSlotRow where
  id : String
  card_id : String
  time : String
  description : String
deriving DecidableEq, Repr

/-- Row of `plan_attachments`. -/
structure PlanAttRow where
  id : String
  plan_id : String
  type : String
  name : String
  url : String
deriving DecidableEq, Repr

/-- The remote relational store, as the tables the card/plan data layer
touches, plus the cursor of the `generateUUID` stream. -/
structure DB where
  plans : List PlanRow := []
  cards : List CardRow := []
  cardChecklist : List CheckRow := []
  cardComments : List CommentRow := []
  cardAttachments : List CardAttRow := []
  cardTimeSlots : List CardSlotRow := []
  planAttachments : List PlanAttRow := []
  gen : Nat := 0
deriving DecidableEq, Repr

/-- Environment of the data layer: the `generateUUID` stream (indexed by the
store's cursor) and the clock reads. -/
structure DBEnv where
  uuid : Nat → String
  nowIso : String := ""
  todayStr : Nat := 0

/-- Draw the next `generateUUID()` value. -/
def freshId (env : DBEnv) (db : DB) : String × DB :=
  (env.uuid db.gen, { db with gen := db.gen + 1 })

namespace SupabaseService

/-- `src/unnamed/part_006` `updatePlan` (lines 149-182): update the plan row,
then delete-and-reinsert its attachments with regenerated ids.  Supabase-side
failures are not injected in this model, so the boolean result is `true`. -/
def updatePlan (env : DBEnv) (plan : Plan) (db : DB) : Bool × DB :=
  let db1 := { db with plans := db.plans.map fun (r : PlanRow) =>
    if r.id = plan.id then
      { r with
        title := plan.title
        description := plan.description
        date := plan.date
        has_due_date := plan.hasDueDate
        due_date := plan.dueDate
        completed := plan.completed }
    else r }
  let db2 := { db1 with
    planAttachments := db1.planAttachments.filter fun (a : PlanAttRow) => ¬ a.plan_id = plan.id }
  let db3 := plan.attachments.foldl (fun (d : DB) (att : Attachment) =>
    let fresh := freshId env d
    { fresh.2 with planAttachments := fresh.2.planAttachments ++
      [{ id := fresh.1
         plan_id := plan.id
         type := att.type
         name := att.name
         url := att.url }] }) db2
  (true, db3)

/-- `src/unnamed/part_006` `createCard` (lines 384-440): insert the card row —
the insert payload names no `position` column, so the stored row keeps a null
position — then insert its checklist, comments and attachments (the latter
with their given ids). -/
def createCard (card : Card) (db : DB) : Option Card × DB :=
  let row : CardRow :=
    { id := card.id
      title := card.title
      description := card.description
      status := card.status
      start_date := card.startDate
      end_date := card.endDate
      linked_plan_id := card.linkedPlanId
      created_at := card.createdAt
      position := none }
  let db1 := { db with cards := db.cards ++ [row] }
  let db2 := { db1 with
    cardChecklist := db1.cardChecklist ++ card.checklist.map (fun (i : ChecklistItem) =>
      ({ id := i.id, card_id := card.id, text := i.text, completed := i.completed } : CheckRow)) }
  let db3 := { db2 with
    cardComments := db2.cardComments ++ card.comments.map (fun (c : Comment) =>
      ({ id := c.id
         card_id := card.id
         text := c.text
         is_marked_done := c.isMarkedDone
         created_at := c.createdAt } : CommentRow)) }
  let db4 := { db3 with
    cardAttachments := db3.cardAttachments ++ card.attachments.map (fun (a : Attachment) =>
      ({ id := a.id
         card_id := card.id
         type := a.type
         name := a.name
         url := a.url } : CardAttRow)) }
  (some card, db4)

/-- The card a `kanban_cards` row is mapped to by `fetchCards`
(`src/unnamed/part_006` lines 297-311): children gathered by `card_id`, and
`position: card.position || 0`. -/
def rowToCard (db : DB) (r : CardRow) : Card :=
  { id := r.id
    title := r.title
    description := r.description
    status := r.status
    startDate := r.start_date
    endDate := r.end_date
    linkedPlanId := r.linked_plan_id
    timeSlots := (db.cardTimeSlots.filter fun (s : CardSlotRow) => s.card_id = r.id).map
      fun s => { id := s.id, time := s.time, description := s.description }
    checklist := (db.cardChecklist.filter fun (i : CheckRow) => i.card_id = r.id).map
      fun i => { id := i.id, text := i.text, completed := i.completed }
    comments := (db.cardComments.filter fun (c : CommentRow) => c.card_id = r.id).map
      fun c => { id := c.id, text := c.text, createdAt := c.created_at, isMarkedDone := c.is_marked_done }
    attachments := (db.cardAttachments.filter fun (a : CardAttRow) => a.card_id = r.id).map
      fun a => { id := a.id, type := a.type, name := a.name, url := a.url }
    createdAt := r.created_at
    position := some (r.position.getD 0) }

/-- `src/unnamed/part_006` `fetchCards` (lines 267-312).  The SQL ordering of
the select is not modelled; the claims below only concern which cards come
back and with which field values. -/
def fetchCards (db : DB) : List Card := db.cards.map (rowToCard db)

/-- The real-card branch of `src/unnamed/part_006` `updateCard` (lines
560-625): update the `kanban_cards` row, then delete-and-reinsert its
checklist, comments and attachments (the latter with regenerated ids). -/
def updateCardReal (env : DBEnv) (card : Card) (db : DB) : DB :=
  let db1 := { db with cards := db.cards.map fun (r : CardRow) =>
    if r.id = card.id then
      { r with
        title := card.title
        description := card.description
        status := card.status
        start_date := card.startDate
        end_date := card.endDate
        linked_plan_id := card.linkedPlanId
        position := some (card.position.getD 0) }
    else r }
  let db2 := { db1 with
    cardChecklist :=
      (db1.cardChecklist.filter fun (i : CheckRow) => ¬ i.card_id = card.id) ++
      card.checklist.map (fun (i : ChecklistItem) =>
        ({ id := i.id, card_id := card.id, text := i.text, completed := i.completed } : CheckRow)) }
  let db3 := { db2 with
    cardComments :=
      (db2.cardComments.filter fun (c : CommentRow) => ¬ c.card_id = card.id) ++
      card.comments.map (fun (c : Comment) =>
        ({ id := c.id
           card_id := card.id
           text := c.text
           is_marked_done := c.isMarkedDone
           created_at := c.createdAt } : CommentRow)) }
  let db4 := { db3 with cardAttachments :=
    db3.cardAttachments.filter fun (a : CardAttRow) => ¬ a.card_id = card.id }
  card.attachments.foldl (fun (d : DB) (att : Attachment) =>
    let fresh := freshId env d
    { fresh.2 with cardAttachments := fresh.2.cardAttachments ++
      [{ id := fresh.1
         card_id := card.id
         type := att.type
         name := att.name
         url := att.url }] }) db4

/-- The `planUpdate` object built inside the data layer's `updateCard` for a
`plan-`-prefixed card id (lines 450-464): the plan row payload pushed to
`updatePlan`, with `date` falling back to today when the card has no start
date. -/
def planUpdateOfCard (env : DBEnv) (card : Card) : Plan :=
  { id := strDropN card.id 5
    title := card.title
    description := card.description
    date := card.startDate.getD env.todayStr
    hasDueDate := card.endDate.isSome
    dueDate := card.endDate
    completed := card.status = "completed"
    createdAt := card.createdAt
    attachments := card.attachments
    timeSlots := card.timeSlots }

/-- `src/unnamed/part_006` `updateCard` (lines 442-625), with explicit fuel
for the source's recursion (`none` = fuel exhausted, which a run on a store
whose card ids are not `plan-`-prefixed never reaches).  On a `plan-` id:
update the plan, then query the card linked to that plan — `.single()`
succeeds only on exactly one row — and either redirect recursively to the
real card with attachments cleared, or, when the promotion condition holds
(non-empty checklist or comments, a set position, or `completed` status),
insert a fresh linked card carrying the data.  On a real id: the
`updateCardReal` branch above. -/
def updateCard (env : DBEnv) : Nat → Card → DB → Option (Bool × DB)
  | 0, _, _ => none
  | fuel + 1, card, db =>
    if strStartsWith card.id "plan-" then
      let planId := strDropN card.id 5
      let planUpdate : Plan := planUpdateOfCard env card
      let res := updatePlan env planUpdate db
      if res.1 = false then some (false, res.2) else
      let db1 := res.2
      match db1.cards.filter (fun (r : CardRow) => r.linked_plan_id = some planId) with
      | [r] => updateCard env fuel { card with id := r.id, attachments := [] } db1
      | _ =>
        if ¬ card.checklist = [] ∨ ¬ card.comments = [] ∨ card.position.isSome ∨
            card.status = "completed" then
          let fresh := freshId env db1
          let newId := fresh.1
          let newRow : CardRow :=
            { id := newId
              title := card.title
              description := card.description
              status := card.status
              start_date := card.startDate
              end_date := card.endDate
              linked_plan_id := some planId
              created_at := env.nowIso
              position := some (card.position.getD 0) }
          let db2 := { fresh.2 with cards := fresh.2.cards ++ [newRow] }
          let db3 := { db2 with
            cardChecklist := db2.cardChecklist ++ card.checklist.map (fun (i : ChecklistItem) =>
              ({ id := i.id, card_id := newId, text := i.text, completed := i.completed } : CheckRow)) }
          let db4 := { db3 with
            cardComments := db3.cardComments ++ card.comments.map (fun (c : Comment) =>
              ({ id := c.id
                 card_id := newId
                 text := c.text
                 is_marked_done := c.isMarkedDone
                 created_at := c.createdAt } : CommentRow)) }
          some (true, db4)
        else some (true, db1)
    else some (true, updateCardReal env card db)

/-- Cards of the store linked to a plan id. -/
def linkedRows (pid : String) (db : DB) : List CardRow :=
  db.cards.filter fun (r : CardRow) => r.linked_plan_id = some pid

end SupabaseService

/-- The status derivation as the specification states it (spec §4.3 and claim
C1): with `today` the current calendar day, `start` the plan's date and `end`
the due date when `hasDueDate` else the start date — `completed`
unconditionally; else `in-progress` when overdue (target day `due ?? start`
strictly before today) or `start` is today or today lies in `[start, end]`;
else `pending` when `start` is strictly after today; else `inbox`. -/
def deriveStatusSpec (now : Nat) (p : Plan) : String :=
  let today := dayOf now
  let startD := p.date
  let endD := if p.hasDueDate then p.dueDate.getD p.date else p.date
  if p.completed then "completed"
  else if p.dueDate.getD p.date < today ∨ startD = today ∨
      (startD ≤ today ∧ today ≤ endD) then "in-progress"
  else if today < startD then "pending"
  else "inbox"


instance : IsTotal Card (fun a b => posD a ≤ posD b) := ⟨fun a b => le_total (posD a) (posD b)⟩

instance : IsTrans Card (fun a b => posD a ≤ posD b) := ⟨fun _ _ _ => le_trans⟩

/-- The row update applied by `updateCardReal` to the row with the card's id. -/
def applyCardPayload (card : Card) (r : CardRow) : CardRow :=
  if r.id = card.id then
    { r with
      title := card.title
      description := card.description
      status := card.status
      start_date := card.startDate
      end_date := card.endDate
      linked_plan_id := card.linkedPlanId
      position := some (card.position.getD 0) }
  else r


/-- The day length constant is positive. -/
theorem msPerDay_pos : 0 < msPerDay := by decide

section DayArithmetic

/-- Crossing the end of a day is the same as being on a strictly later day. -/
theorem endOfDay_lt_iff (a b : Nat) : endOfDay a < b ↔ dayOf a < dayOf b := by
  unfold endOfDay dayOf
  constructor
  · intro h
    have h1 : a / msPerDay * msPerDay + msPerDay ≤ b := by
      have := msPerDay_pos
      omega
    have h2 : (a / msPerDay + 1) * msPerDay ≤ b := by
      rw [Nat.add_mul, Nat.one_mul]; exact h1
    have := (Nat.le_div_iff_mul_le msPerDay_pos).mpr h2
    omega
  · intro h
    have h2 : (a / msPerDay + 1) * msPerDay ≤ b :=
      (Nat.le_div_iff_mul_le msPerDay_pos).mp h
    have := msPerDay_pos
    rw [Nat.add_mul, Nat.one_mul] at h2
    omega

/-- Being before the start of a day is the same as being on a strictly
earlier day. -/
theorem lt_startOfDay_iff (a b : Nat) : a < startOfDay b ↔ dayOf a < dayOf b := by
  unfold startOfDay dayOf
  exact (Nat.div_lt_iff_lt_mul msPerDay_pos).symm

/-- The day of the day boundary `d * msPerDay` is `d`. -/
theorem dayOf_boundary (d : Nat) : dayOf (d * msPerDay) = d := by
  unfold dayOf
  exact Nat.mul_div_cancel d msPerDay_pos

/-- A day boundary is at or before the start of the current day exactly when
its day is at or before the current day. -/
theorem boundary_le_startOfDay_iff (d b : Nat) :
    d * msPerDay ≤ startOfDay b ↔ d ≤ dayOf b := by
  unfold startOfDay dayOf
  constructor
  · intro h; exact Nat.le_of_mul_le_mul_right h msPerDay_pos
  · intro h; exact Nat.mul_le_mul_right msPerDay h

/-- The start of the current day is at or before a day boundary exactly when
the current day is at or before its day. -/
theorem startOfDay_le_boundary_iff (d b : Nat) :
    startOfDay b ≤ d * msPerDay ↔ dayOf b ≤ d := by
  unfold startOfDay dayOf
  constructor
  · intro h; exact Nat.le_of_mul_le_mul_right h msPerDay_pos
  · intro h; exact Nat.mul_le_mul_right msPerDay h

/-- The start of the current day is strictly before a day boundary exactly
when the current day is strictly before its day. -/
theorem startOfDay_lt_boundary_iff (d b : Nat) :
    startOfDay b < d * msPerDay ↔ dayOf b < d := by
  unfold startOfDay dayOf
  exact Nat.mul_lt_mul_right msPerDay_pos

end DayArithmetic

/-- The two `isOverdue` implementations agree on every input: both reduce to
"the target day is strictly before the current day". -/
theorem isOverdue_agree (now : Nat) (date dueDate : Option Nat) (completed : Bool) :
    Utils.isOverdue now date dueDate completed =
      MobileUtils.isOverdue now date dueDate completed := by
  unfold Utils.isOverdue MobileUtils.isOverdue
  cases completed
  · cases date with
    | none => rfl
    | some d =>
      simp only [Bool.false_eq_true, if_false, decide_eq_decide]
      rw [endOfDay_lt_iff, lt_startOfDay_iff]
  · rfl

/-- The wall-clock `isOverdue` on a parsed day boundary, characterised at day
granularity. -/
theorem isOverdue_boundary (now d : Nat) (due : Option Nat) :
    Utils.isOverdue now (some (d * msPerDay)) (due.map (· * msPerDay)) false =
      decide (due.getD d < dayOf now) := by
  unfold Utils.isOverdue
  have htarget : (due.map (· * msPerDay)).getD (d * msPerDay) = due.getD d * msPerDay := by
    cases due <;> rfl
  simp only [Bool.false_eq_true, if_false, htarget, decide_eq_decide]
  rw [endOfDay_lt_iff, dayOf_boundary]

/-- Merging two cascaded ifs with the same positive branch. -/
theorem ite_ite_or {α : Sort _} (A B : Prop) [Decidable A] [Decidable B] (x y : α) :
    (if A then x else if B then x else y) = (if A ∨ B then x else y) := by
  by_cases hA : A
  · simp [hA]
  · by_cases hB : B <;> simp [hA, hB]

/-- The source's status derivation coincides with the spec's day-level
description at every instant. -/
theorem determineCardStatus_eq_deriveStatusSpec (now : Nat) (p : Plan) :
    determineCardStatus now p = deriveStatusSpec now p := by
  unfold determineCardStatus deriveStatusSpec
  by_cases hc : p.completed = true
  · simp [hc]
  · have hc' : p.completed = false := by
      cases hcc : p.completed
      · rfl
      · exact absurd hcc hc
    rw [hc', isOverdue_boundary]
    have hend : (if p.hasDueDate = true ∧ p.dueDate.isSome = true
        then p.dueDate.getD p.date * msPerDay else p.date * msPerDay) =
        (if p.hasDueDate = true then p.dueDate.getD p.date else p.date) * msPerDay := by
      cases hd : p.dueDate <;> cases hb : p.hasDueDate <;> simp [hd, hb]
    simp only [Bool.false_eq_true, if_false, hend, decide_eq_true_eq,
      dayOf_boundary, boundary_le_startOfDay_iff, startOfDay_le_boundary_iff,
      startOfDay_lt_boundary_iff, ge_iff_le]
    rw [ite_ite_or]
    refine if_congr ?_ rfl (if_congr ?_ rfl rfl)
    · constructor
      · rintro (h | h)
        · exact Or.inl h
        · exact Or.inr h
      · rintro (h | h)
        · exact Or.inl h
        · exact Or.inr h
    · exact or_iff_left_of_imp And.right

/-- C1: For every plan and every evaluation instant, `determineCardStatus` is
exactly the spec's derivation — `completed` unconditionally when the plan is
completed; else `in-progress` when overdue or today is in `[start, end]`
(or start is today); else `pending` when start is strictly after today; else
`inbox` — and it is total, returning exactly one of the four built-in
statuses. -/
theorem c1_status_derivation (now : Nat) (p : Plan) :
    determineCardStatus now p = deriveStatusSpec now p ∧
    determineCardStatus now p ∈ ["completed", "in-progress", "pending", "inbox"] := by
  refine ⟨determineCardStatus_eq_deriveStatusSpec now p, ?_⟩
  rw [determineCardStatus_eq_deriveStatusSpec]
  have h4 : deriveStatusSpec now p = "completed" ∨
      deriveStatusSpec now p = "in-progress" ∨
      deriveStatusSpec now p = "pending" ∨
      deriveStatusSpec now p = "inbox" := by
    simp only [deriveStatusSpec]
    split_ifs <;> simp
  rcases h4 with h | h | h | h <;> rw [h] <;> simp

/-- C9 counterexample: the claim that the two `isOverdue` implementations
differ on some input is false — no evaluation instant and input distinguishes
them. -/
theorem c9_counterexample :
    ¬ ∃ (now : Nat) (date dueDate : Option Nat) (completed : Bool),
      Utils.isOverdue now date dueDate completed ≠
        MobileUtils.isOverdue now date dueDate completed := by
  rintro ⟨now, date, dueDate, completed, h⟩
  exact h (isOverdue_agree now date dueDate completed)

/-- C9 (amended): the calendar-day `isOverdue` and the wall-clock `isOverdue`
are extensionally equivalent — for every evaluation instant and input they
return the same result, both reducing to "the target calendar day is strictly
before the current calendar day". -/
theorem c9_isOverdue_equivalent (now : Nat) (date dueDate : Option Nat)
    (completed : Bool) :
    Utils.isOverdue now date dueDate completed =
      MobileUtils.isOverdue now date dueDate completed :=
  isOverdue_agree now date dueDate completed

/-- C7 counterexample: the plan with `hasDueDate = true` and due date equal to
its start date satisfies the §3 invariant (due ≥ start), yet the round trip
through `planToCard` and the `syncCardToPlanner` mapping flips `hasDueDate`
to `false` (and for `hasDueDate = false` plans the round trip rewrites
`dueDate` to the start date). -/
theorem c7_counterexample :
    (syncCardToPlanner 0 (planToCard 0
      { id := "p1", title := "t", date := 100, hasDueDate := true,
        dueDate := some 100, completed := false })).map PlanPatch.hasDueDate =
      some false ∧
    ({ id := "p1", title := "t", date := 100, hasDueDate := true,
       dueDate := some 100, completed := false } : Plan).hasDueDate = true ∧
    (syncCardToPlanner 0 (planToCard 0
      { id := "p2", title := "t", date := 100, hasDueDate := false,
        dueDate := none, completed := false })).map PlanPatch.dueDate =
      some (some 100) := by
  refine ⟨rfl, rfl, rfl⟩

/-- C7 (amended): for every plan satisfying the §3 invariant, the round trip
through `planToCard` and the no-op `syncCardToPlanner` mapping preserves
`title` and `date` always; when `hasDueDate` is true it preserves `dueDate`,
and preserves `hasDueDate` exactly when the due date differs from the start
date; when `hasDueDate` is false it preserves `hasDueDate` but rewrites
`dueDate` to the start date. -/
theorem c7_roundtrip (now : Nat) (p : Plan)
    (hinv : p.hasDueDate = true → ∃ d, p.dueDate = some d ∧ p.date ≤ d) :
    ∃ patch, syncCardToPlanner now (planToCard now p) = some patch ∧
      patch.title = p.title ∧
      patch.date = p.date ∧
      (p.hasDueDate = true → patch.dueDate = p.dueDate ∧
        (patch.hasDueDate = p.hasDueDate ↔ p.dueDate ≠ some p.date)) ∧
      (p.hasDueDate = false → patch.hasDueDate = p.hasDueDate ∧
        patch.dueDate = some p.date) := by
  refine ⟨_, rfl, rfl, rfl, ?_, ?_⟩
  · intro hb
    obtain ⟨d, hd, _⟩ := hinv hb
    constructor
    · simp [syncCardToPlanner, planToCard, hb]
    · simp [syncCardToPlanner, planToCard, hb, hd]
      constructor
      · intro h1 h2
        exact h1 (by omega)
      · intro h1 h2
        exact h1 (by omega)
  · intro hb
    constructor
    · simp [syncCardToPlanner, planToCard, hb]
    · simp [syncCardToPlanner, planToCard, hb]

/-- C7 witness: the amended round-trip law at a concrete plan with a strictly
later due date. -/
theorem c7_roundtrip_witness :
    (({ id := "p3", title := "w", date := 10, hasDueDate := true,
        dueDate := some 12, completed := false } : Plan).hasDueDate = true →
      ∃ d, (some 12 : Option Nat) = some d ∧ 10 ≤ d) ∧
    (∃ patch, syncCardToPlanner 5 (planToCard 5
        { id := "p3", title := "w", date := 10, hasDueDate := true,
          dueDate := some 12, completed := false }) = some patch ∧
      patch.title = "w" ∧
      patch.date = 10 ∧
      (true = true → patch.dueDate = some 12 ∧
        (patch.hasDueDate = true ↔ (some 12 : Option Nat) ≠ some 10)) ∧
      (true = false → patch.hasDueDate = true ∧ patch.dueDate = some 10)) := by
  constructor
  · intro h
    exact ⟨12, rfl, by decide⟩
  · exact c7_roundtrip 5
      { id := "p3", title := "w", date := 10, hasDueDate := true,
        dueDate := some 12, completed := false }
      (fun h => ⟨12, rfl, by decide⟩)

/-- In-bounds `getD` is `get`. -/
theorem getD_of_lt {α : Type _} (l : List α) (i : Nat) (d : α) (h : i < l.length) :
    l.getD i d = l.get ⟨i, h⟩ := by
  simp [List.getD_eq_getElem?_getD, List.getElem?_eq_getElem h]

/-- The destination neighbour list is sorted by position. -/
theorem destCardsOf_sorted (cards : List Card) (newStatus draggableId : String) :
    List.Sorted (fun a b => posD a ≤ posD b)
      (destCardsOf cards newStatus draggableId) :=
  List.sorted_insertionSort _ _

/-- Adjacent entries of the destination list have nondecreasing positions. -/
theorem destCardsOf_adjacent_le (cards : List Card) (newStatus draggableId : String)
    (i : Nat) (h0 : 0 < i) (hlen : i < (destCardsOf cards newStatus draggableId).length) :
    posAt (destCardsOf cards newStatus draggableId) (i - 1) ≤
      posAt (destCardsOf cards newStatus draggableId) i := by
  have hlt : i - 1 < (destCardsOf cards newStatus draggableId).length := by omega
  unfold posAt
  rw [getD_of_lt _ _ _ hlt, getD_of_lt _ _ _ hlen]
  exact (destCardsOf_sorted cards newStatus draggableId).rel_get_of_lt
    (by simp [Fin.lt_def]; omega)

/-- C8: `handleDragEnd` computes the moved card's new position as 1000 for an
empty destination column, half the first neighbour's position at index 0, the
last neighbour's position plus 1000 when appended at the end, and otherwise
the arithmetic mean of the two adjacent neighbours — and in the mean case,
for distinct neighbour positions the result lies strictly between them. -/
theorem c8_drag_position (cards : List Card) (newStatus draggableId : String)
    (destIndex : Nat) :
    (destCardsOf cards newStatus draggableId = [] →
      handleDragEndNewPosition cards newStatus draggableId destIndex = 1000) ∧
    (destCardsOf cards newStatus draggableId ≠ [] → destIndex = 0 →
      handleDragEndNewPosition cards newStatus draggableId destIndex =
        posAt (destCardsOf cards newStatus draggableId) 0 / 2) ∧
    (destCardsOf cards newStatus draggableId ≠ [] → destIndex ≠ 0 →
      destIndex ≥ (destCardsOf cards newStatus draggableId).length →
      handleDragEndNewPosition cards newStatus draggableId destIndex =
        posAt (destCardsOf cards newStatus draggableId)
          ((destCardsOf cards newStatus draggableId).length - 1) + 1000) ∧
    (0 < destIndex → destIndex < (destCardsOf cards newStatus draggableId).length →
      handleDragEndNewPosition cards newStatus draggableId destIndex =
        (posAt (destCardsOf cards newStatus draggableId) (destIndex - 1) +
          posAt (destCardsOf cards newStatus draggableId) destIndex) / 2 ∧
      (posAt (destCardsOf cards newStatus draggableId) (destIndex - 1) ≠
          posAt (destCardsOf cards newStatus draggableId) destIndex →
        posAt (destCardsOf cards newStatus draggableId) (destIndex - 1) <
          handleDragEndNewPosition cards newStatus draggableId destIndex ∧
        handleDragEndNewPosition cards newStatus draggableId destIndex <
          posAt (destCardsOf cards newStatus draggableId) destIndex)) := by
  unfold handleDragEndNewPosition
  refine ⟨?_, ?_, ?_, ?_⟩
  · intro he
    simp [he]
  · intro hne h0
    rw [if_neg (by simp [List.length_eq_zero] at *; exact hne), if_pos h0]
  · intro hne h0 hge
    rw [if_neg (by simp [List.length_eq_zero] at *; exact hne), if_neg h0,
      if_pos hge]
  · intro h0 hlen
    have hne0 : ¬ (destCardsOf cards newStatus draggableId).length = 0 := by omega
    have hn0 : ¬ destIndex = 0 := by omega
    have hnge : ¬ destIndex ≥ (destCardsOf cards newStatus draggableId).length := by
      omega
    rw [if_neg hne0, if_neg hn0, if_neg hnge]
    refine ⟨rfl, ?_⟩
    intro hneq
    have hle := destCardsOf_adjacent_le cards newStatus draggableId destIndex h0 hlen
    have hlt : posAt (destCardsOf cards newStatus draggableId) (destIndex - 1) <
        posAt (destCardsOf cards newStatus draggableId) destIndex :=
      lt_of_le_of_ne hle hneq
    constructor <;> linarith

/-- C8 witness: concrete drag of a card between two neighbours at positions
1000 and 2000 lands at 1500, strictly inside. -/
theorem c8_drag_position_witness :
    (destCardsOf
        [{ id := "a", title := "a", status := "inbox", createdAt := "",
           position := some 1000 },
         { id := "b", title := "b", status := "inbox", createdAt := "",
           position := some 2000 },
         { id := "m", title := "m", status := "pending", createdAt := "",
           position := some 5 }] "inbox" "m" ≠ [] ∧
      (0 : Nat) < 1 ∧
      1 < (destCardsOf
        [{ id := "a", title := "a", status := "inbox", createdAt := "",
           position := some 1000 },
         { id := "b", title := "b", status := "inbox", createdAt := "",
           position := some 2000 },
         { id := "m", title := "m", status := "pending", createdAt := "",
           position := some 5 }] "inbox" "m").length) ∧
    handleDragEndNewPosition
        [{ id := "a", title := "a", status := "inbox", createdAt := "",
           position := some 1000 },
         { id := "b", title := "b", status := "inbox", createdAt := "",
           position := some 2000 },
         { id := "m", title := "m", status := "pending", createdAt := "",
           position := some 5 }] "inbox" "m" 1 = 1500 ∧
    (1000 : Rat) < 1500 ∧ (1500 : Rat) < 2000 := by
  refine ⟨⟨by decide, by decide, by decide⟩, ?_, by norm_num, by norm_num⟩
  have h := (c8_drag_position
    [{ id := "a", title := "a", status := "inbox", createdAt := "",
       position := some 1000 },
     { id := "b", title := "b", status := "inbox", createdAt := "",
       position := some 2000 },
     { id := "m", title := "m", status := "pending", createdAt := "",
       position := some 5 }] "inbox" "m" 1).2.2.2 (by decide) (by decide)
  have h1 : posAt (destCardsOf
      [{ id := "a", title := "a", status := "inbox", createdAt := "",
         position := some 1000 },
       { id := "b", title := "b", status := "inbox", createdAt := "",
         position := some 2000 },
       { id := "m", title := "m", status := "pending", createdAt := "",
         position := some 5 }] "inbox" "m") (1 - 1) = 1000 := by decide
  have h2 : posAt (destCardsOf
      [{ id := "a", title := "a", status := "inbox", createdAt := "",
         position := some 1000 },
       { id := "b", title := "b", status := "inbox", createdAt := "",
         position := some 2000 },
       { id := "m", title := "m", status := "pending", createdAt := "",
         position := some 5 }] "inbox" "m") 1 = 2000 := by decide
  rw [h.1, h1, h2]
  norm_num

/-- The overlay keeps the back-reference to the plan. -/
theorem mergeCard_linkedPlanId (now : Nat) (existing : Card) (p : Plan) :
    (mergeCard now existing p).linkedPlanId = some p.id := rfl

/-- The virtual card carries the back-reference to the plan. -/
theorem planToCard_linkedPlanId (now : Nat) (p : Plan) :
    (planToCard now p).linkedPlanId = some p.id := rfl

/-- A member linked to `pid` makes the linked count positive. -/
theorem linkedCount_pos_of_mem {pid : String} {c : Card} {cs : List Card}
    (hmem : c ∈ cs) (hlink : c.linkedPlanId = some pid) :
    0 < linkedCount pid cs := by
  unfold linkedCount
  have : c ∈ cs.filter fun x => x.linkedPlanId = some pid :=
    List.mem_filter.mpr ⟨hmem, by simp [hlink]⟩
  exact List.length_pos.mpr (List.ne_nil_of_mem this)

/-- The linked count of an empty mirror. -/
theorem linkedCount_nil (pid : String) : linkedCount pid [] = 0 := rfl

/-- Unfolding the linked count over a cons cell. -/
theorem linkedCount_cons (pid : String) (c : Card) (cs : List Card) :
    linkedCount pid (c :: cs) =
      (if c.linkedPlanId = some pid then 1 else 0) + linkedCount pid cs := by
  unfold linkedCount
  rw [List.filter_cons]
  by_cases h : c.linkedPlanId = some pid
  · simp [h]
    omega
  · simp [h]

/-- `syncOne` for a different plan does not change the count of cards linked
to `pid`. -/
theorem linkedCount_syncOne_ne (now : Nat) (q : Plan) (pid : String)
    (h : ¬ q.id = pid) (cs : List Card) :
    linkedCount pid (syncOne now q cs) = linkedCount pid cs := by
  induction cs with
  | nil =>
    show linkedCount pid [planToCard now q] = linkedCount pid []
    rw [linkedCount_cons, linkedCount_nil, planToCard_linkedPlanId]
    simp [h]
  | cons c cs ih =>
    by_cases hc : c.linkedPlanId = some q.id
    · simp only [syncOne, if_pos hc]
      rw [linkedCount_cons, linkedCount_cons, mergeCard_linkedPlanId, hc]
    · simp only [syncOne, if_neg hc]
      rw [linkedCount_cons, linkedCount_cons, ih]

/-- `syncOne` for the plan itself: the count of cards linked to the plan
becomes one when it was zero (a virtual card is pushed) and is otherwise
unchanged (the first linked card is overlaid in place). -/
theorem linkedCount_syncOne_self (now : Nat) (p : Plan) (cs : List Card) :
    linkedCount p.id (syncOne now p cs) = max 1 (linkedCount p.id cs) := by
  induction cs with
  | nil =>
    show linkedCount p.id [planToCard now p] = max 1 (linkedCount p.id [])
    rw [linkedCount_cons, linkedCount_nil, planToCard_linkedPlanId]
    simp
  | cons c cs ih =>
    by_cases hc : c.linkedPlanId = some p.id
    · simp only [syncOne, if_pos hc]
      rw [linkedCount_cons, linkedCount_cons, mergeCard_linkedPlanId, hc]
      simp
    · simp only [syncOne, if_neg hc]
      rw [linkedCount_cons, linkedCount_cons, ih]
      simp [hc]

/-- One reconcile step never pushes the linked count above `max 1` of its
previous value. -/
theorem linkedCount_syncStep_le (now : Nat) (ign : List String) (pid : String)
    (cs : List Card) (q : Plan) :
    linkedCount pid (syncStep now ign cs q) ≤ max 1 (linkedCount pid cs) := by
  unfold syncStep
  by_cases hq : q.id ∈ ign
  · simp [hq]
  · rw [if_neg hq]
    by_cases h : q.id = pid
    · subst h
      rw [linkedCount_syncOne_self]
    · rw [linkedCount_syncOne_ne now q pid h]
      exact le_max_right _ _

/-- The whole plans fold never pushes the linked count above `max 1` of the
raw mirror's count. -/
theorem linkedCount_foldl_le (now : Nat) (ign : List String) (pid : String)
    (plans : List Plan) (cs : List Card) :
    linkedCount pid (plans.foldl (syncStep now ign) cs) ≤
      max 1 (linkedCount pid cs) := by
  induction plans generalizing cs with
  | nil => exact le_max_right _ _
  | cons q plans ih =>
    rw [List.foldl_cons]
    calc linkedCount pid (plans.foldl (syncStep now ign) (syncStep now ign cs q))
        ≤ max 1 (linkedCount pid (syncStep now ign cs q)) := ih _
      _ ≤ max 1 (max 1 (linkedCount pid cs)) :=
          max_le_max le_rfl (linkedCount_syncStep_le now ign pid cs q)
      _ = max 1 (linkedCount pid cs) := by rw [← max_assoc]; simp

/-- Filtering only lowers the linked count. -/
theorem linkedCount_filter_le (pid : String) (f : Card → Bool) (cs : List Card) :
    linkedCount pid (cs.filter f) ≤ linkedCount pid cs := by
  unfold linkedCount
  exact List.Sublist.length_le (List.Sublist.filter _ (List.filter_sublist cs))

/-- C2 counterexample: with two real cards both linked to plan `p` in the raw
mirror, the reconcile pass keeps both — the derived view holds two entries
for `p`, so the claim fails for arbitrary mirrors. -/
theorem c2_counterexample :
    linkedCount "p"
      (kanbanSync 0
        [{ id := "c1", title := "c1", status := "inbox", createdAt := "",
           linkedPlanId := some "p" },
         { id := "c2", title := "c2", status := "inbox", createdAt := "",
           linkedPlanId := some "p" }]
        [{ id := "p", title := "t", date := 0, hasDueDate := false,
           completed := false }]
        []) = 2 := by
  decide

/-- C2 (amended): provided the real-card mirror satisfies the §3 invariant —
at most one real card references P — the derived view produced by the
reconcile pass contains at most one entry linked to P, for every plan mirror
and ignore set. -/
theorem c2_at_most_one_entry (now : Nat) (raw : List Card) (plans : List Plan)
    (ign : List String) (pid : String) (h : linkedCount pid raw ≤ 1) :
    linkedCount pid (kanbanSync now raw plans ign) ≤ 1 := by
  unfold kanbanSync
  calc linkedCount pid ((plans.foldl (syncStep now ign) raw).filter _)
      ≤ linkedCount pid (plans.foldl (syncStep now ign) raw) :=
        linkedCount_filter_le _ _ _
    _ ≤ max 1 (linkedCount pid raw) := linkedCount_foldl_le now ign pid plans raw
    _ ≤ 1 := by omega

/-- C2 witness: the amended bound at a concrete mirror holding exactly one
real card linked to the plan. -/
theorem c2_at_most_one_entry_witness :
    linkedCount "p"
      [({ id := "c1", title := "c1", status := "inbox", createdAt := "",
          linkedPlanId := some "p" } : Card)] ≤ 1 ∧
    linkedCount "p"
      (kanbanSync 0
        [{ id := "c1", title := "c1", status := "inbox", createdAt := "",
           linkedPlanId := some "p" }]
        [{ id := "p", title := "t", date := 0, hasDueDate := false,
           completed := false }]
        []) ≤ 1 := by
  refine ⟨by decide, ?_⟩
  exact c2_at_most_one_entry 0
    [{ id := "c1", title := "c1", status := "inbox", createdAt := "",
       linkedPlanId := some "p" }]
    [{ id := "p", title := "t", date := 0, hasDueDate := false,
       completed := false }]
    [] "p" (by decide)

/-- C3: every entry of the derived view that carries a plan back-reference
points at a plan that is present in the plan mirror and not ignored; hence no
entry derived from an ignored plan survives the reconcile pass, and every
real card linked to an ignored or missing plan is dropped. -/
theorem c3_ignored_plans_absent (now : Nat) (raw : List Card) (plans : List Plan)
    (ign : List String) (c : Card) (hc : c ∈ kanbanSync now raw plans ign)
    (pid : String) (hlink : c.linkedPlanId = some pid) :
    pid ∉ ign ∧ ∃ p ∈ plans, p.id = pid := by
  unfold kanbanSync at hc
  have h := List.mem_filter.mp hc
  have hpred := h.2
  simp only [hlink, decide_eq_true_eq, List.any_eq_true] at hpred
  exact hpred

/-- C3 witness: at a concrete mirror pair, the virtual card of the lone plan
is in the view and its back-reference indeed points at a present, non-ignored
plan. -/
theorem c3_ignored_plans_absent_witness :
    (planToCard 0 { id := "p", title := "t", date := 0, hasDueDate := false, completed := false } ∈
      kanbanSync 0 []
        [{ id := "p", title := "t", date := 0, hasDueDate := false, completed := false }] ["q"]) ∧
    ((planToCard 0
        { id := "p", title := "t", date := 0, hasDueDate := false, completed := false }).linkedPlanId =
      some "p") ∧
    ("p" ∉ ["q"] ∧
      ∃ p ∈ [({ id := "p", title := "t", date := 0, hasDueDate := false, completed := false } : Plan)],
        p.id = "p") := by
  refine ⟨by decide, rfl, ?_⟩
  exact c3_ignored_plans_absent 0 []
    [{ id := "p", title := "t", date := 0, hasDueDate := false, completed := false }] ["q"]
    (planToCard 0 { id := "p", title := "t", date := 0, hasDueDate := false, completed := false })
    (by decide) "p" rfl

/-- A card linked to a different plan survives `syncOne` untouched. -/
theorem mem_syncOne_of_ne (now : Nat) (q : Plan) {pid : String} {c : Card}
    (h : ¬ q.id = pid) (hlink : c.linkedPlanId = some pid) {cs : List Card}
    (hmem : c ∈ cs) : c ∈ syncOne now q cs := by
  induction cs with
  | nil => cases hmem
  | cons a cs ih =>
    by_cases ha : a.linkedPlanId = some q.id
    · simp only [syncOne, if_pos ha]
      rcases List.mem_cons.mp hmem with rfl | hmem'
      · rw [hlink] at ha
        exact absurd (Option.some_injective _ ha).symm h
      · exact List.mem_cons_of_mem _ hmem'
    · simp only [syncOne, if_neg ha]
      rcases List.mem_cons.mp hmem with rfl | hmem'
      · exact List.mem_cons_self _ _
      · exact List.mem_cons_of_mem _ (ih hmem')

/-- When exactly one card of the mirror is linked to the plan, `syncOne`
overlays precisely that card. -/
theorem mem_syncOne_merge (now : Nat) (p : Plan) {existing : Card}
    {cs : List Card} (hcount : linkedCount p.id cs = 1) (hmem : existing ∈ cs)
    (hlink : existing.linkedPlanId = some p.id) :
    mergeCard now existing p ∈ syncOne now p cs := by
  induction cs with
  | nil => cases hmem
  | cons a cs ih =>
    by_cases ha : a.linkedPlanId = some p.id
    · simp only [syncOne, if_pos ha]
      have hcs : linkedCount p.id cs = 0 := by
        rw [linkedCount_cons] at hcount
        simp [ha] at hcount
        omega
      have hea : existing = a := by
        rcases List.mem_cons.mp hmem with rfl | hmem'
        · rfl
        · exact absurd (linkedCount_pos_of_mem hmem' hlink) (by omega)
      rw [← hea]
      exact List.mem_cons_self _ _
    · simp only [syncOne, if_neg ha]
      have hmem' : existing ∈ cs := by
        rcases List.mem_cons.mp hmem with rfl | h'
        · exact absurd hlink ha
        · exact h'
      have hcount' : linkedCount p.id cs = 1 := by
        rw [linkedCount_cons] at hcount
        simpa [ha] using hcount
      exact List.mem_cons_of_mem _ (ih hcount' hmem')

/-- Folding plans whose ids all differ from `pid` preserves membership of a
`pid`-linked card and the `pid`-linked count. -/
theorem foldl_syncStep_preserve (now : Nat) (ign : List String) {pid : String}
    {existing : Card} (hlink : existing.linkedPlanId = some pid) :
    ∀ (l : List Plan) (cs : List Card), (∀ q ∈ l, ¬ q.id = pid) →
      existing ∈ cs → linkedCount pid cs = 1 →
      existing ∈ l.foldl (syncStep now ign) cs ∧
        linkedCount pid (l.foldl (syncStep now ign) cs) = 1 := by
  intro l
  induction l with
  | nil => exact fun cs _ h1 h2 => ⟨h1, h2⟩
  | cons q l ih =>
    intro cs hq h1 h2
    rw [List.foldl_cons]
    apply ih
    · exact fun r hr => hq r (List.mem_cons_of_mem _ hr)
    · unfold syncStep
      split
      · exact h1
      · exact mem_syncOne_of_ne now q (hq q (List.mem_cons_self _ _)) hlink h1
    · unfold syncStep
      split
      · exact h2
      · rw [linkedCount_syncOne_ne now q pid (hq q (List.mem_cons_self _ _))]
        exact h2

/-- Folding plans whose ids all differ from `pid` preserves membership of a
`pid`-linked card. -/
theorem foldl_syncStep_mem (now : Nat) (ign : List String) {pid : String}
    {c : Card} (hlink : c.linkedPlanId = some pid) :
    ∀ (l : List Plan) (cs : List Card), (∀ q ∈ l, ¬ q.id = pid) → c ∈ cs →
      c ∈ l.foldl (syncStep now ign) cs := by
  intro l
  induction l with
  | nil => exact fun cs _ h1 => h1
  | cons q l ih =>
    intro cs hq h1
    rw [List.foldl_cons]
    apply ih
    · exact fun r hr => hq r (List.mem_cons_of_mem _ hr)
    · unfold syncStep
      split
      · exact h1
      · exact mem_syncOne_of_ne now q (hq q (List.mem_cons_self _ _)) hlink h1

/-- C5 counterexample: an existing linked card whose position is `0` — a set
position, reachable e.g. from `fetchCards`' `position || 0` default — does
not keep its position through the overlay: JS `||` treats `0` as falsy, so
the merged entry takes the plan-derived (absent) position instead. -/
theorem c5_counterexample :
    ({ id := "c", title := "c", status := "inbox", createdAt := "",
       linkedPlanId := some "p", position := some 0 } : Card).position =
      some 0 ∧
    (kanbanSync 0
      [{ id := "c", title := "c", status := "inbox", createdAt := "",
         linkedPlanId := some "p", position := some 0 }]
      [{ id := "p", title := "t", date := 0, hasDueDate := false, completed := false }]
      []).map Card.position = [none] := by
  exact ⟨rfl, by decide⟩

/-- C5 (amended): in the reconcile pass, for every plan with exactly one
existing real card linked to it (distinct plan ids, plan present and not
ignored), the merged entry appears in the derived view, and: checklist and
comments come from the existing card, time slots from the plan; status is the
existing card's when it is a custom-section id or `completed`, else the
plan-derived status; position is the existing card's when it is set *and
nonzero* (JS truthiness), else the plan-derived default, which is absent. -/
theorem c5_overlay_semantics (now : Nat) (raw : List Card) (plans : List Plan)
    (ign : List String) (p : Plan) (existing : Card)
    (hnodup : (plans.map Plan.id).Nodup) (hp : p ∈ plans) (hig : ¬ p.id ∈ ign)
    (hmem : existing ∈ raw) (hlink : existing.linkedPlanId = some p.id)
    (hcount : linkedCount p.id raw = 1) :
    mergeCard now existing p ∈ kanbanSync now raw plans ign ∧
    (mergeCard now existing p).checklist = existing.checklist ∧
    (mergeCard now existing p).comments = existing.comments ∧
    (mergeCard now existing p).timeSlots = p.timeSlots ∧
    (mergeCard now existing p).status =
      (if strStartsWith existing.status "custom-" ∨ existing.status = "completed"
       then existing.status else determineCardStatus now p) ∧
    (mergeCard now existing p).position =
      (match existing.position with
       | some q => if q = 0 then none else some q
       | none => none) := by
  refine ⟨?_, rfl, rfl, rfl, ?_, ?_⟩
  · -- membership in the derived view
    obtain ⟨l1, l2, rfl⟩ := List.append_of_mem hp
    have hmap : ((l1.map Plan.id) ++ p.id :: (l2.map Plan.id)).Nodup := by
      simpa using hnodup
    have hsplit := List.nodup_append.mp hmap
    have hnot1 : p.id ∉ l1.map Plan.id := by
      intro hin
      exact hsplit.2.2 hin (List.mem_cons_self _ _)
    have hnot2 : p.id ∉ l2.map Plan.id := (List.nodup_cons.mp hsplit.2.1).1
    have hne1 : ∀ q ∈ l1, ¬ q.id = p.id := by
      intro q hq he
      exact hnot1 (he ▸ List.mem_map_of_mem Plan.id hq)
    have hne2 : ∀ q ∈ l2, ¬ q.id = p.id := by
      intro q hq he
      exact hnot2 (he ▸ List.mem_map_of_mem Plan.id hq)
    unfold kanbanSync
    apply List.mem_filter.mpr
    constructor
    · rw [List.foldl_append, List.foldl_cons]
      have hQ := foldl_syncStep_preserve now ign hlink l1 raw hne1 hmem hcount
      have hstep : syncStep now ign (l1.foldl (syncStep now ign) raw) p =
          syncOne now p (l1.foldl (syncStep now ign) raw) := by
        unfold syncStep
        rw [if_neg hig]
      have hmerge : mergeCard now existing p ∈
          syncOne now p (l1.foldl (syncStep now ign) raw) :=
        mem_syncOne_merge now p hQ.2 hQ.1 hlink
      rw [hstep]
      exact foldl_syncStep_mem now ign (mergeCard_linkedPlanId now existing p)
        l2 _ hne2 hmerge
    · rw [mergeCard_linkedPlanId]
      simp only [decide_eq_true_eq, List.any_eq_true]
      exact ⟨hig, p, by simp, by simp⟩
  · -- status characterisation
    by_cases h1 : strStartsWith existing.status "custom-"
    · simp [mergeCard, h1]
    · by_cases h2 : existing.status = "completed"
      · simp [mergeCard, h1, h2]
      · simp [mergeCard, planToCard, h1, h2]
  · -- position characterisation
    cases hpos : existing.position with
    | none => simp [mergeCard, jsOrPos, planToCard, hpos]
    | some q =>
      by_cases hq : q = 0 <;> simp [mergeCard, jsOrPos, planToCard, hpos, hq]

/-- C5 witness: the amended overlay law at a concrete mirror with one linked
card at nonzero position 7. -/
theorem c5_overlay_semantics_witness :
    linkedCount "p"
      [({ id := "c1", title := "c1", status := "inbox", createdAt := "", linkedPlanId := some "p", position := some 7 } : Card)] = 1 ∧
    mergeCard 0
      { id := "c1", title := "c1", status := "inbox", createdAt := "", linkedPlanId := some "p", position := some 7 }
      { id := "p", title := "t", date := 0, hasDueDate := false, completed := false } ∈
      kanbanSync 0
        [{ id := "c1", title := "c1", status := "inbox", createdAt := "", linkedPlanId := some "p", position := some 7 }]
        [{ id := "p", title := "t", date := 0, hasDueDate := false, completed := false }] [] ∧
    (mergeCard 0
      { id := "c1", title := "c1", status := "inbox", createdAt := "", linkedPlanId := some "p", position := some 7 }
      { id := "p", title := "t", date := 0, hasDueDate := false, completed := false }).position = some 7 := by
  refine ⟨by decide, ?_, by decide⟩
  exact (c5_overlay_semantics 0
    [{ id := "c1", title := "c1", status := "inbox", createdAt := "", linkedPlanId := some "p", position := some 7 }]
    [{ id := "p", title := "t", date := 0, hasDueDate := false, completed := false }] []
    { id := "p", title := "t", date := 0, hasDueDate := false, completed := false }
    { id := "c1", title := "c1", status := "inbox", createdAt := "", linkedPlanId := some "p", position := some 7 }
    (by decide) (by decide) (by decide) (by decide) rfl (by decide)).1

/-- C6: unscheduling a virtual card.  If creating the replacement real card
fails, the board surfaces an error and returns with the mirrors and the
ignore set untouched and no `deletePlan` issued.  If creation succeeds, the
old plan's id is added to the ignore set (unconditionally — before the
deletion's outcome can be observed, whose boolean result the source ignores,
so a deletion failure is not rolled back), `deletePlan` is issued, and the
new real card is in the raw mirror. -/
theorem c6_unschedule_error_handling (env : BoardEnv) (st : BoardState)
    (c : Card) (sel : Card) (pid : String)
    (hdate : c.startDate = none) (hvirt : strStartsWith c.id "plan-" = true)
    (hsel : st.selectedCard = some sel) (hlink : sel.linkedPlanId = some pid) :
    (env.createCardOk = false →
      (boardUpdateCard env st c).1.rawCards = st.rawCards ∧
      (boardUpdateCard env st c).1.plans = st.plans ∧
      (boardUpdateCard env st c).1.ignoredPlanIds = st.ignoredPlanIds ∧
      (boardUpdateCard env st c).1.error =
        some "Failed to unschedule card. Please try again." ∧
      ∀ q, ¬ RemoteOp.deletePlan q ∈ (boardUpdateCard env st c).2) ∧
    (env.createCardOk = true →
      (boardUpdateCard env st c).1.ignoredPlanIds = st.ignoredPlanIds ++ [pid] ∧
      RemoteOp.deletePlan pid ∈ (boardUpdateCard env st c).2 ∧
      ({ (if strStartsWith c.status "custom-" then c else { c with status := "inbox" }) with
         id := env.newCardId
         linkedPlanId := none
         createdAt := env.nowIso } : Card) ∈ (boardUpdateCard env st c).1.rawCards) := by
  constructor
  · intro hfail
    simp [boardUpdateCard, hdate, hvirt, hfail]
  · intro hok
    simp [boardUpdateCard, hdate, hvirt, hok, hsel, hlink]

/-- C6 witness: the success branch at a concrete board state — the plan id
enters the ignore set and a `deletePlan` call is issued. -/
theorem c6_unschedule_error_handling_witness :
    (boardUpdateCard { newCardId := "new1" }
      { selectedCard := some { id := "plan-p", title := "v", status := "inbox", createdAt := "", linkedPlanId := some "p" } }
      { id := "plan-p", title := "v", status := "inbox", createdAt := "", linkedPlanId := some "p" }).1.ignoredPlanIds = ["p"] ∧
    RemoteOp.deletePlan "p" ∈
      (boardUpdateCard { newCardId := "new1" }
        { selectedCard := some { id := "plan-p", title := "v", status := "inbox", createdAt := "", linkedPlanId := some "p" } }
        { id := "plan-p", title := "v", status := "inbox", createdAt := "", linkedPlanId := some "p" }).2 := by
  have h := (c6_unschedule_error_handling { newCardId := "new1" }
    { selectedCard := some { id := "plan-p", title := "v", status := "inbox", createdAt := "", linkedPlanId := some "p" } }
    { id := "plan-p", title := "v", status := "inbox", createdAt := "", linkedPlanId := some "p" }
    { id := "plan-p", title := "v", status := "inbox", createdAt := "", linkedPlanId := some "p" }
    "p" rfl (by decide) rfl rfl).2 rfl
  exact ⟨h.1, h.2.1⟩

/-- Mapping a function that fixes every member is the identity. -/
theorem map_eq_self_of {α : Type _} (l : List α) (f : α → α)
    (h : ∀ x ∈ l, f x = x) : l.map f = l := by
  induction l with
  | nil => rfl
  | cons a l ih =>
    rw [List.map_cons, h a (List.mem_cons_self _ _), ih fun x hx =>
      h x (List.mem_cons_of_mem _ hx)]

/-- A singleton filter splits the list around its unique hit. -/
theorem filter_eq_singleton_split {α : Type _} (p : α → Bool) :
    ∀ (l : List α) (a : α), l.filter p = [a] →
      ∃ l1 l2, l = l1 ++ a :: l2 ∧ (∀ x ∈ l1, ¬ p x = true) ∧
        (∀ x ∈ l2, ¬ p x = true) ∧ p a = true := by
  intro l
  induction l with
  | nil => intro a h; cases h
  | cons x l ih =>
    intro a h
    rw [List.filter_cons] at h
    by_cases hx : p x = true
    · rw [if_pos hx] at h
      have hxa : x = a := (List.cons.injEq _ _ _ _ ▸ h).1
      have hnil : l.filter p = [] := (List.cons.injEq _ _ _ _ ▸ h).2
      refine ⟨[], l, by rw [hxa]; rfl, by simp, ?_, hxa ▸ hx⟩
      intro y hy
      exact List.filter_eq_nil.mp hnil y hy
    · rw [if_neg hx] at h
      obtain ⟨l1, l2, hsplit, h1, h2, hpa⟩ := ih a h
      exact ⟨x :: l1, l2, by rw [hsplit]; rfl, by
        intro y hy
        rcases List.mem_cons.mp hy with rfl | hy'
        · exact hx
        · exact h1 y hy', h2, hpa⟩

/-- `updatePlan` touches only the `plans` and `plan_attachments` tables (and
the uuid cursor): the card tables are untouched and the result is success. -/
theorem updatePlan_frame (env : DBEnv) (plan : Plan) (db : DB) :
    (SupabaseService.updatePlan env plan db).1 = true ∧
    (SupabaseService.updatePlan env plan db).2.cards = db.cards ∧
    (SupabaseService.updatePlan env plan db).2.cardAttachments = db.cardAttachments ∧
    (SupabaseService.updatePlan env plan db).2.cardChecklist = db.cardChecklist ∧
    (SupabaseService.updatePlan env plan db).2.cardComments = db.cardComments := by
  have hfold : ∀ (l : List Attachment) (d : DB),
      ((l.foldl (fun (d : DB) (att : Attachment) =>
        let fresh := freshId env d
        { fresh.2 with planAttachments := fresh.2.planAttachments ++
          [{ id := fresh.1
             plan_id := plan.id
             type := att.type
             name := att.name
             url := att.url }] }) d).cards = d.cards ∧
       (l.foldl (fun (d : DB) (att : Attachment) =>
        let fresh := freshId env d
        { fresh.2 with planAttachments := fresh.2.planAttachments ++
          [{ id := fresh.1
             plan_id := plan.id
             type := att.type
             name := att.name
             url := att.url }] }) d).cardAttachments = d.cardAttachments ∧
       (l.foldl (fun (d : DB) (att : Attachment) =>
        let fresh := freshId env d
        { fresh.2 with planAttachments := fresh.2.planAttachments ++
          [{ id := fresh.1
             plan_id := plan.id
             type := att.type
             name := att.name
             url := att.url }] }) d).cardChecklist = d.cardChecklist ∧
       (l.foldl (fun (d : DB) (att : Attachment) =>
        let fresh := freshId env d
        { fresh.2 with planAttachments := fresh.2.planAttachments ++
          [{ id := fresh.1
             plan_id := plan.id
             type := att.type
             name := att.name
             url := att.url }] }) d).cardComments = d.cardComments) := by
    intro l
    induction l with
    | nil => exact fun d => ⟨rfl, rfl, rfl, rfl⟩
    | cons a l ih => exact fun d => ih _
  unfold SupabaseService.updatePlan
  exact ⟨rfl, (hfold plan.attachments _).1, (hfold plan.attachments _).2.1,
    (hfold plan.attachments _).2.2.1, (hfold plan.attachments _).2.2.2⟩

/-- `updateCardReal` maps the row payload over the cards table and, when the
updated card carries no attachments, leaves only the other cards' attachment
rows. -/
theorem updateCardReal_frame (env : DBEnv) (c : Card) (db : DB) :
    (SupabaseService.updateCardReal env c db).cards =
      db.cards.map (applyCardPayload c) ∧
    (c.attachments = [] →
      (SupabaseService.updateCardReal env c db).cardAttachments =
        db.cardAttachments.filter fun (a : CardAttRow) => ¬ a.card_id = c.id) := by
  have hfold : ∀ (l : List Attachment) (d : DB),
      (l.foldl (fun (d : DB) (att : Attachment) =>
        let fresh := freshId env d
        { fresh.2 with cardAttachments := fresh.2.cardAttachments ++
          [{ id := fresh.1
             card_id := c.id
             type := att.type
             name := att.name
             url := att.url }] }) d).cards = d.cards := by
    intro l
    induction l with
    | nil => exact fun d => rfl
    | cons a l ih => exact fun d => ih _
  constructor
  · exact hfold c.attachments _
  · intro hatts
    unfold SupabaseService.updateCardReal
    rw [hatts]
    rfl

/-- The payload keeps the row id. -/
theorem applyCardPayload_id (c : Card) (r : CardRow) :
    (applyCardPayload c r).id = r.id := by
  unfold applyCardPayload
  split
  · rename_i h
    rw [h]
  · rfl

/-- Redirecting the update onto the unique linked row: afterwards the rows
linked to the plan are exactly the updated row, and the table's ids are
unchanged. -/
theorem linkedRows_map_payload (c : Card) (planId : String) (cards : List CardRow)
    (r0 : CardRow) (hlinkc : c.linkedPlanId = some planId)
    (hnodup : (cards.map CardRow.id).Nodup)
    (hfilter : cards.filter (fun (r : CardRow) => r.linked_plan_id = some planId) = [r0])
    (hr0 : r0.id = c.id) :
    (cards.map (applyCardPayload c)).filter
        (fun (r : CardRow) => r.linked_plan_id = some planId) =
      [applyCardPayload c r0] ∧
    (cards.map (applyCardPayload c)).map CardRow.id = cards.map CardRow.id := by
  constructor
  · obtain ⟨l1, l2, rfl, h1, h2, hp0⟩ := filter_eq_singleton_split _ cards r0 hfilter
    have hids : ((l1.map CardRow.id) ++ r0.id :: (l2.map CardRow.id)).Nodup := by
      simpa using hnodup
    have hsplit := List.nodup_append.mp hids
    have hne1 : ∀ x ∈ l1, ¬ x.id = c.id := by
      intro x hx he
      exact hsplit.2.2 (List.mem_map_of_mem CardRow.id hx)
        (by rw [he, ← hr0]; exact List.mem_cons_self _ _)
    have hne2 : ∀ x ∈ l2, ¬ x.id = c.id := by
      intro x hx he
      exact (List.nodup_cons.mp hsplit.2.1).1
        (by rw [hr0, ← he]; exact List.mem_map_of_mem CardRow.id hx)
    have hmap1 : l1.map (applyCardPayload c) = l1 :=
      map_eq_self_of l1 _ fun x hx => by
        unfold applyCardPayload
        rw [if_neg (hne1 x hx)]
    have hmap2 : l2.map (applyCardPayload c) = l2 :=
      map_eq_self_of l2 _ fun x hx => by
        unfold applyCardPayload
        rw [if_neg (hne2 x hx)]
    rw [List.map_append, List.map_cons, hmap1, hmap2, List.filter_append,
      List.filter_cons]
    have hlinked : ((applyCardPayload c r0).linked_plan_id = some planId) := by
      unfold applyCardPayload
      rw [if_pos hr0]
      exact hlinkc
    rw [if_pos (by simp [hlinked])]
    rw [List.filter_eq_nil.mpr (by intro x hx; simpa using h1 x hx),
      List.filter_eq_nil.mpr (by intro x hx; simpa using h2 x hx)]
    rfl
  · rw [List.map_map]
    exact List.map_congr_left fun r _ => applyCardPayload_id c r

/-- Filtering for a predicate after keeping only its complement is empty. -/
theorem filter_after_not {α : Type _} (q : α → Prop) [DecidablePred q] (l : List α) :
    ((l.filter fun a => ¬ q a).filter fun a => q a) = [] := by
  apply List.filter_eq_nil.mpr
  intro x hx
  have := List.of_mem_filter hx
  simpa using this

/-- Part (a) of the promotion-idempotence claim: on a `plan-` id with exactly
one real card already linked to the plan (and sane, non-`plan-`-prefixed,
duplicate-free card ids), the data layer's `updateCard` redirects to that
card — no card is created or deleted, the plan's linked set stays that single
card, and the redirected card's attachment rows are cleared. -/
theorem updateCard_redirect_existing (env : DBEnv) (fuel : Nat) (c : Card)
    (db : DB) (planId : String) (r0 : CardRow)
    (hpre : strStartsWith c.id "plan-" = true)
    (hdrop : strDropN c.id 5 = planId)
    (hlink : c.linkedPlanId = some planId)
    (hrows : SupabaseService.linkedRows planId db = [r0])
    (hreal : strStartsWith r0.id "plan-" = false)
    (hnodup : (db.cards.map CardRow.id).Nodup) :
    ∃ db', SupabaseService.updateCard env (fuel + 2) c db = some (true, db') ∧
      db'.cards.map CardRow.id = db.cards.map CardRow.id ∧
      (SupabaseService.linkedRows planId db').map CardRow.id = [r0.id] ∧
      db'.cardAttachments.filter (fun (a : CardAttRow) => a.card_id = r0.id) = [] := by
  have hok_any : ∀ P : Plan, (SupabaseService.updatePlan env P db).1 = true :=
    fun P => (updatePlan_frame env P db).1
  have hcards_any : ∀ P : Plan, (SupabaseService.updatePlan env P db).2.cards = db.cards :=
    fun P => (updatePlan_frame env P db).2.1
  unfold SupabaseService.linkedRows at hrows
  refine ⟨SupabaseService.updateCardReal env { c with id := r0.id, attachments := [] }
    (SupabaseService.updatePlan env (SupabaseService.planUpdateOfCard env c) db).2, ?_, ?_, ?_, ?_⟩
  · show SupabaseService.updateCard env (fuel + 1 + 1) c db = _
    simp only [SupabaseService.updateCard, hpre, if_true, hdrop, hok_any,
      hcards_any, hrows, hreal, Bool.true_eq_false, Bool.false_eq_true,
      if_false]
  · have h1 := (updateCardReal_frame env { c with id := r0.id, attachments := [] }
      (SupabaseService.updatePlan env (SupabaseService.planUpdateOfCard env c) db).2).1
    rw [h1, hcards_any]
    exact (linkedRows_map_payload { c with id := r0.id, attachments := [] }
      planId db.cards r0 hlink hnodup hrows rfl).2
  · have h1 := (updateCardReal_frame env { c with id := r0.id, attachments := [] }
      (SupabaseService.updatePlan env (SupabaseService.planUpdateOfCard env c) db).2).1
    unfold SupabaseService.linkedRows
    rw [h1, hcards_any]
    rw [(linkedRows_map_payload { c with id := r0.id, attachments := [] }
      planId db.cards r0 hlink hnodup hrows rfl).1]
    rw [List.map_cons, List.map_nil, applyCardPayload_id]
  · have h2 := (updateCardReal_frame env { c with id := r0.id, attachments := [] }
      (SupabaseService.updatePlan env (SupabaseService.planUpdateOfCard env c) db).2).2 rfl
    rw [h2]
    exact filter_after_not (fun (a : CardAttRow) => a.card_id = r0.id) _

/-- Part (b) of the promotion-idempotence claim: starting from a store with
no card linked to the plan, two successive promotions of the same virtual
card leave at most one real card linked to the plan — the second call finds
the card the first one created (when the promotion condition fired) and
redirects to it instead of inserting another. -/
theorem updateCard_promote_twice (env : DBEnv) (fuel : Nat) (c : Card) (db : DB)
    (planId : String)
    (hpre : strStartsWith c.id "plan-" = true)
    (hdrop : strDropN c.id 5 = planId)
    (hlink : c.linkedPlanId = some planId)
    (hrows : SupabaseService.linkedRows planId db = [])
    (hnodup : (db.cards.map CardRow.id).Nodup)
    (huuid_pre : ∀ n, strStartsWith (env.uuid n) "plan-" = false)
    (huuid_fresh : ∀ n, ¬ env.uuid n ∈ db.cards.map CardRow.id) :
    ∀ db1 db2, SupabaseService.updateCard env (fuel + 2) c db = some (true, db1) →
      SupabaseService.updateCard env (fuel + 2) c db1 = some (true, db2) →
      (SupabaseService.linkedRows planId db2).length ≤ 1 := by
  have hok_any : ∀ (P : Plan) (d : DB),
      (SupabaseService.updatePlan env P d).1 = true :=
    fun P d => (updatePlan_frame env P d).1
  have hcards_any : ∀ (P : Plan) (d : DB),
      (SupabaseService.updatePlan env P d).2.cards = d.cards :=
    fun P d => (updatePlan_frame env P d).2.1
  intro db1 db2 h1 h2
  unfold SupabaseService.linkedRows at hrows
  rw [show fuel + 2 = fuel + 1 + 1 from rfl] at h1 h2
  by_cases hpc : (¬ c.checklist = [] ∨ ¬ c.comments = [] ∨ c.position.isSome ∨
      c.status = "completed")
  · -- promotion fires: the first call inserts one linked card
    simp only [SupabaseService.updateCard, hpre, if_true, hdrop, hok_any,
      hcards_any, hrows, Bool.true_eq_false, Bool.false_eq_true, if_false,
      hpc, if_pos, Option.some.injEq, Prod.mk.injEq, true_and] at h1
    have hdb1cards : db1.cards = db.cards ++
        [({ id := env.uuid (SupabaseService.updatePlan env
              (SupabaseService.planUpdateOfCard env c) db).2.gen
            title := c.title
            description := c.description
            status := c.status
            start_date := c.startDate
            end_date := c.endDate
            linked_plan_id := some planId
            created_at := env.nowIso
            position := some (c.position.getD 0) } : CardRow)] := by
      rw [← h1]
      show (SupabaseService.updatePlan env
        (SupabaseService.planUpdateOfCard env c) db).2.cards ++ _ = _
      rw [hcards_any]
      rfl
    simp only [SupabaseService.updateCard, hpre, if_true, hdrop, hok_any,
      hcards_any, hdb1cards, List.filter_append, hrows, List.nil_append,
      List.filter_cons, List.filter_nil, Bool.true_eq_false,
      Bool.false_eq_true, if_false, huuid_pre, Option.some.injEq,
      Prod.mk.injEq, true_and, eq_self_iff_true, decide_True, if_true] at h2
    have hfilter2 : (db.cards ++
        [({ id := env.uuid (SupabaseService.updatePlan env
              (SupabaseService.planUpdateOfCard env c) db).2.gen
            title := c.title
            description := c.description
            status := c.status
            start_date := c.startDate
            end_date := c.endDate
            linked_plan_id := some planId
            created_at := env.nowIso
            position := some (c.position.getD 0) } : CardRow)]).filter
        (fun (r : CardRow) => r.linked_plan_id = some planId) =
        [({ id := env.uuid (SupabaseService.updatePlan env
              (SupabaseService.planUpdateOfCard env c) db).2.gen
            title := c.title
            description := c.description
            status := c.status
            start_date := c.startDate
            end_date := c.endDate
            linked_plan_id := some planId
            created_at := env.nowIso
            position := some (c.position.getD 0) } : CardRow)] := by
      rw [List.filter_append, hrows]
      simp
    have hnodup2 : ((db.cards ++
        [({ id := env.uuid (SupabaseService.updatePlan env
              (SupabaseService.planUpdateOfCard env c) db).2.gen
            title := c.title
            description := c.description
            status := c.status
            start_date := c.startDate
            end_date := c.endDate
            linked_plan_id := some planId
            created_at := env.nowIso
            position := some (c.position.getD 0) } : CardRow)]).map CardRow.id).Nodup := by
      rw [List.map_append]
      refine List.Nodup.append hnodup (List.nodup_singleton _) ?_
      intro a ha hb
      simp only [List.map_cons, List.map_nil, List.mem_singleton] at hb
      rw [hb] at ha
      exact huuid_fresh _ ha
    unfold SupabaseService.linkedRows
    rw [← h2, (updateCardReal_frame env _ _).1, hcards_any, hdb1cards]
    rw [(linkedRows_map_payload
      { id := env.uuid (SupabaseService.updatePlan env
          (SupabaseService.planUpdateOfCard env c) db).2.gen
        title := c.title
        description := c.description
        status := c.status
        startDate := c.startDate
        endDate := c.endDate
        timeSlots := c.timeSlots
        checklist := c.checklist
        comments := c.comments
        attachments := []
        createdAt := c.createdAt
        linkedPlanId := c.linkedPlanId
        position := c.position } planId _ _ hlink hnodup2 hfilter2 rfl).1]
    simp
  · -- no promotion: neither call touches the cards table
    simp only [SupabaseService.updateCard, hpre, if_true, hdrop, hok_any,
      hcards_any, hrows, Bool.true_eq_false, Bool.false_eq_true, if_false,
      hpc, if_neg, Option.some.injEq, Prod.mk.injEq, true_and] at h1
    obtain rfl := h1.symm
    simp only [SupabaseService.updateCard, hpre, if_true, hdrop, hok_any,
      hcards_any, hrows, Bool.true_eq_false, Bool.false_eq_true, if_false,
      hpc, if_neg, Option.some.injEq, Prod.mk.injEq, true_and] at h2
    obtain rfl := h2.symm
    unfold SupabaseService.linkedRows
    rw [hcards_any, hcards_any, hrows]
    simp

/-- C4: promotion through the data layer's `updateCard` is idempotent.  (a)
On a `plan-`-prefixed id, when exactly one real card is already linked to the
plan, no second card is created: the update is redirected to the existing
card with its attachments cleared, leaving the card-id set unchanged and that
single card still the only one linked.  (b) Starting with no linked card,
invoking the path twice never yields two real cards linked to the plan. -/
theorem c4_promotion_idempotent :
    (∀ (env : DBEnv) (fuel : Nat) (c : Card) (db : DB) (planId : String)
        (r0 : CardRow),
      strStartsWith c.id "plan-" = true →
      strDropN c.id 5 = planId →
      c.linkedPlanId = some planId →
      SupabaseService.linkedRows planId db = [r0] →
      strStartsWith r0.id "plan-" = false →
      (db.cards.map CardRow.id).Nodup →
      ∃ db', SupabaseService.updateCard env (fuel + 2) c db = some (true, db') ∧
        db'.cards.map CardRow.id = db.cards.map CardRow.id ∧
        (SupabaseService.linkedRows planId db').map CardRow.id = [r0.id] ∧
        db'.cardAttachments.filter (fun (a : CardAttRow) => a.card_id = r0.id) = []) ∧
    (∀ (env : DBEnv) (fuel : Nat) (c : Card) (db : DB) (planId : String),
      strStartsWith c.id "plan-" = true →
      strDropN c.id 5 = planId →
      c.linkedPlanId = some planId →
      SupabaseService.linkedRows planId db = [] →
      (db.cards.map CardRow.id).Nodup →
      (∀ n, strStartsWith (env.uuid n) "plan-" = false) →
      (∀ n, ¬ env.uuid n ∈ db.cards.map CardRow.id) →
      ∀ db1 db2, SupabaseService.updateCard env (fuel + 2) c db = some (true, db1) →
        SupabaseService.updateCard env (fuel + 2) c db1 = some (true, db2) →
        (SupabaseService.linkedRows planId db2).length ≤ 1) :=
  ⟨fun env fuel c db planId r0 h1 h2 h3 h4 h5 h6 =>
    updateCard_redirect_existing env fuel c db planId r0 h1 h2 h3 h4 h5 h6,
   fun env fuel c db planId h1 h2 h3 h4 h5 h6 h7 =>
    updateCard_promote_twice env fuel c db planId h1 h2 h3 h4 h5 h6 h7⟩

/-- C4 witness: a concrete double promotion of a completed virtual card
against an empty store — the second call redirects to the card the first one
created, leaving a single linked card. -/
theorem c4_promotion_idempotent_witness :
    (strStartsWith "plan-p" "plan-" = true ∧ strDropN "plan-p" 5 = "p") ∧
    (SupabaseService.linkedRows "p"
      ({ cards := [{ id := "u0", title := "x", status := "completed", linked_plan_id := some "p", position := some 0 }],
         gen := 1 } : DB)).length ≤ 1 := by
  refine ⟨⟨by decide, by decide⟩, ?_⟩
  exact c4_promotion_idempotent.2 { uuid := fun _ => "u0" } 0
    { id := "plan-p", title := "x", status := "completed", createdAt := "", linkedPlanId := some "p" }
    {} "p" (by decide) (by decide) rfl (by decide) (by decide)
    (fun n => rfl) (fun n => by simp)
    { cards := [{ id := "u0", title := "x", status := "completed", linked_plan_id := some "p", position := some 0 }],
      gen := 1 }
    { cards := [{ id := "u0", title := "x", status := "completed", linked_plan_id := some "p", position := some 0 }],
      gen := 1 }
    (by decide) (by decide)

/-- C10: the data layer's `createCard` inserts the `kanban_cards` row without
a position value — even though the board's `addCard` computed
`maxPos + 1000` for the card — and a subsequent `fetchCards` maps the null
position to `0`, so the newly created card comes back with position 0. -/
theorem c10_position_not_persisted :
    (∀ (c : Card) (db : DB),
      ∃ row : CardRow,
        ((SupabaseService.createCard c db).2).cards = db.cards ++ [row] ∧
        row.id = c.id ∧ row.position = none ∧
        ∃ k, k ∈ SupabaseService.fetchCards (SupabaseService.createCard c db).2 ∧
          k.id = c.id ∧ k.position = some 0) ∧
    (∀ (cards : List Card) (newId title status nowIso : String),
      (addCardNewCard cards newId title status nowIso).position = some (maxPos cards + 1000)) := by
  constructor
  · intro c db
    refine ⟨{ id := c.id
              title := c.title
              description := c.description
              status := c.status
              start_date := c.startDate
              end_date := c.endDate
              linked_plan_id := c.linkedPlanId
              created_at := c.createdAt
              position := none }, rfl, rfl, rfl, ?_⟩
    refine ⟨SupabaseService.rowToCard (SupabaseService.createCard c db).2
      { id := c.id
        title := c.title
        description := c.description
        status := c.status
        start_date := c.startDate
        end_date := c.endDate
        linked_plan_id := c.linkedPlanId
        created_at := c.createdAt
        position := none }, ?_, rfl, rfl⟩
    exact List.mem_map_of_mem _ (by simp [SupabaseService.createCard])
  · intro cards newId title status nowIso
    rfl
